import Mathlib

/-!
Shallow embedding of the plaud-exporter automation core.

Source embedded here:
- src/common/domUtils.js : the wait primitives waitForCondition, waitForElement
  and findElementByXPath (poll every 250 ms until a deadline).
- src/features/audioExport/audioExportUtils.js : waitForDeleteMenuItem with its
  primary-selector phase and its post-5-second fallback phase.
- src/features/audioExport/audioExport.js : runExportAll, the outer export loop
  with its stop check, consecutive-error ceiling, worklist scan, per-item
  workflow, and the try/finally whose finally clause ends in return stats.

DOM reads, timers and message responses are modeled as explicit inputs (per-poll
tick results, per-iteration scan snapshots, per-item step outcomes), so every
definition is executable. Wall-clock fields of the stats object (startTime,
endTime, duration) are omitted. Cleanup helpers (resetDomState, the status
indicator, progress messages) catch their own errors internally and do not
influence control flow, so they are modeled as non-throwing side effects.
-/

/-- Poll interval in milliseconds: domUtils.js lines 200 and 247 and
audioExportUtils.js line 18 all fix pollInterval = 250. -/
def pollIntervalMs : Nat := 250

/-- Number of iterations of a while (waited < timeout) loop that starts at
waited = 0 and adds pollIntervalMs after each tick. -/
def numPolls (timeout : Nat) : Nat := (timeout + pollIntervalMs - 1) / pollIntervalMs

/-- Result of evaluating a poll predicate once: a value, or a thrown
exception. -/
inductive Tick (α : Type) where
  | ok (a : α)
  | exn (msg : String)
  deriving DecidableEq, Repr

/-- Outcome of a bounded wait. -/
inductive WaitOutcome where
  | success (waitedMs : Nat)
  | timeoutErr (waitedMs : Nat)
  | thrown (msg : String)
  deriving DecidableEq, Repr

/-- Loop body of waitForCondition (domUtils.js lines 254-261): evaluate the
condition; a thrown exception propagates out of the wait (no catch surrounds
the tick), a true result succeeds, a false result waits 250 ms and retries; an
exhausted tick budget falls through to the timeout throw of line 263. -/
def waitForConditionAux : List (Tick Bool) → Nat → WaitOutcome
  | [], waited => .timeoutErr waited
  | t :: rest, waited =>
    match t with
    | .exn m => .thrown m
    | .ok true => .success waited
    | .ok false => waitForConditionAux rest (waited + pollIntervalMs)

/-- waitForCondition (domUtils.js lines 242-266) over a modeled sequence of
per-tick predicate results. -/
def waitForCondition (ticks : Nat → Tick Bool) (timeout : Nat) : WaitOutcome :=
  waitForConditionAux ((List.range (numPolls timeout)).map ticks) 0

/-- One poll of waitForElement: whether querySelector found an element, what
the caller-supplied condition returned on it (or threw), and whether the
element passed the layout and visibility check of lines 209-216. -/
structure ElemView where
  present : Bool
  cond : Tick Bool
  visible : Bool
  deriving DecidableEq, Repr

/-- Loop body of waitForElement (domUtils.js lines 205-226): an element that is
present and whose condition evaluates true is returned only if also visible; a
condition exception propagates out of the wait; otherwise poll again. -/
def waitForElementAux : List ElemView → Nat → WaitOutcome
  | [], waited => .timeoutErr waited
  | v :: rest, waited =>
    if v.present then
      match v.cond with
      | .exn m => .thrown m
      | .ok true =>
        if v.visible then .success waited
        else waitForElementAux rest (waited + pollIntervalMs)
      | .ok false => waitForElementAux rest (waited + pollIntervalMs)
    else waitForElementAux rest (waited + pollIntervalMs)

/-- waitForElement (domUtils.js lines 195-231). -/
def waitForElement (views : Nat → ElemView) (timeout : Nat) : WaitOutcome :=
  waitForElementAux ((List.range (numPolls timeout)).map views) 0

/-- findElementByXPath (domUtils.js lines 276-299): runs waitForCondition on
the XPath probe and catches every failure of it, returning null (false here);
true means an element was found. -/
def findElementByXPath (ticks : Nat → Tick Bool) (timeout : Nat) : Bool :=
  match waitForCondition ticks timeout with
  | .success _ => true
  | .timeoutErr _ => false
  | .thrown _ => false

/-- The delete texts tried by waitForDeleteMenuItem
(audioExportUtils.js line 26). -/
def deleteTexts : List String := ["Delete", "Delete file", "Delete item"]

/-- JS String.prototype.includes: substring containment. -/
def jsIncludes (s pat : String) : Bool := decide (pat.data <:+: s.data)

/-- Text criterion of the primary phase (audioExportUtils.js lines 39-40): the
trimmed textContent must contain one of the delete texts as a substring. The
argument is the already-trimmed textContent of the node. -/
def primaryTextMatch (text : String) : Bool :=
  deleteTexts.any (fun d => jsIncludes text d)

/-- Text criterion of the post-5-second fallback phase (lines 54-55): the
trimmed textContent must be exactly equal to one of the delete texts. The
argument is the already-trimmed textContent of the node. -/
def fallbackTextMatch (text : String) : Bool :=
  deleteTexts.contains text

/-- DOM snapshot for one poll of waitForDeleteMenuItem: trimmed textContent of
the nodes matched by the three primary menu selectors, in scan order, and of
the nodes matched by the four fallback tag selectors, in scan order. -/
structure MenuDom where
  menuItems : List String
  fallbackEls : List String
  deriving DecidableEq, Repr

/-- First primary-phase hit in scan order (lines 36-47). -/
def scanPrimary (dom : MenuDom) : Option String :=
  dom.menuItems.find? primaryTextMatch

/-- First fallback-phase hit in scan order (lines 51-60). -/
def scanFallback (dom : MenuDom) : Option String :=
  dom.fallbackEls.find? fallbackTextMatch

/-- Result of waitForDeleteMenuItem: the found item (with the phase that found
it and the elapsed wait), or the timeout throw of line 68. -/
inductive MenuResult where
  | found (viaPrimary : Bool) (text : String) (waitedMs : Nat)
  | timeoutErr (maxWaitMs : Nat)
  deriving DecidableEq, Repr

/-- One poll body (audioExportUtils.js lines 35-61): try the primary selectors;
only when waited is strictly greater than 5000 ms additionally try the
broadened fallback scan. -/
def pollDeleteMenuOnce (waited : Nat) (dom : MenuDom) : Option MenuResult :=
  match scanPrimary dom with
  | some txt => some (.found true txt waited)
  | none =>
    if 5000 < waited then
      match scanFallback dom with
      | some txt => some (.found false txt waited)
      | none => none
    else none

/-- The polling loop of waitForDeleteMenuItem (while waited < maxWaitMs): tick
index i polls at waited = pollIntervalMs * i; an exhausted tick budget throws
the timeout error. -/
def waitForDeleteMenuItemAux (doms : Nat → MenuDom) : Nat → Nat → Nat → MenuResult
  | 0, _, maxWaitMs => .timeoutErr maxWaitMs
  | fuel + 1, i, maxWaitMs =>
    match pollDeleteMenuOnce (pollIntervalMs * i) (doms i) with
    | some r => r
    | none => waitForDeleteMenuItemAux doms fuel (i + 1) maxWaitMs

/-- waitForDeleteMenuItem (audioExportUtils.js lines 17-71). -/
def waitForDeleteMenuItem (doms : Nat → MenuDom) (maxWaitMs : Nat) : MenuResult :=
  waitForDeleteMenuItemAux doms (numPolls maxWaitMs) 0 maxWaitMs

/-- One worklist container as seen by the scan: its trimmed title text. The
empty string models a missing title node or an empty title. -/
structure FileItem where
  title : String
  deriving DecidableEq, Repr

/-- Counters of the stats object (audioExport.js lines 40-45); the wall-clock
fields are omitted. filesSkipped is never incremented anywhere in the code. -/
structure RunStats where
  filesProcessed : Nat
  filesErrored : Nat
  filesSkipped : Nat
  deriving DecidableEq, Repr

/-- Which per-item step threw, if any (the throw sites of the per-item try
block, audioExport.js lines 191-355). -/
inductive ExportStepFailure where
  | shareControl
  | exportAudioOption
  | formatOption
  | exportAction
  | downloadFailed
  | contextMenu
  | deleteMenuEntry
  deriving DecidableEq, Repr

/-- Environment of one per-item workflow: the first step that throws (none if
every step succeeds), whether the post-delete removal wait of lines 317-328
times out, and in that case whether the container is still attached when the
catch handler of lines 330-344 runs. -/
structure ItemEnv where
  stepFail : Option ExportStepFailure
  removalWaitTimesOut : Bool
  containerStillAttached : Bool
  deriving DecidableEq, Repr

/-- Environment of one outer-loop iteration: what the stop probes report, the
scan snapshot (none when the unprocessed-files wait of lines 141-157 times
out, some allFiles when it converged on that container snapshot), and the item
environment. -/
structure IterEnv where
  stopFetchOk : Bool
  stopMsgShouldStop : Bool
  scan : Option (List FileItem)
  item : ItemEnv
  deriving DecidableEq, Repr

/-- maxErrors (audioExport.js line 97). -/
def maxErrors : Nat := 3

/-- shouldStopExport (audioExport.js lines 77-92): a foreground run returns
false unconditionally; a background run reports true if the stop-flag fetch
responds ok, else whatever the checkShouldStop message reports (false on a
message failure, which the Bool input covers). -/
def shouldStopExport (backgroundMode fetchOk msgShouldStop : Bool) : Bool :=
  if !backgroundMode then false
  else if fetchOk then true
  else msgShouldStop

/-- JS Set.add on the processed-titles set, represented as a duplicate-free
list with the newest title first; adding a present element is a no-op. -/
def addTitle (t : String) (ts : List String) : List String :=
  if ts.contains t then ts else t :: ts

/-- The unprocessedFiles value after lines 139-163: empty when the wait timed
out, otherwise the containers filtered to those with a nonempty trimmed title
that is not in the processed set (lines 146-151). -/
def computeUnprocessed (scan : Option (List FileItem)) (processed : List String) :
    List FileItem :=
  match scan with
  | none => []
  | some allFiles =>
      allFiles.filter (fun f => f.title != "" && !(processed.contains f.title))

/-- Mutable state of the outer loop (stats, processedTitles, fileCount,
errorCount of audioExport.js lines 40-46 and 95-96). -/
structure LoopState where
  stats : RunStats
  processedTitles : List String
  fileCount : Nat
  errorCount : Nat
  deriving DecidableEq, Repr

/-- What one processed item contributed, recorded so that per-item properties
can be stated: its title, whether its workflow failed, and whether the
force-removal fallback of lines 334-343 ran. -/
structure ItemRecord where
  title : String
  errored : Bool
  forcedRemoval : Bool
  deriving DecidableEq, Repr

/-- Result of one outer-loop iteration. -/
inductive StepResult where
  | stepContinue (s : LoopState) (r : ItemRecord)
  | exitStopped (s : LoopState)
  | exitCompleted (s : LoopState)
  | exitFatal (s : LoopState)
  deriving DecidableEq, Repr

/-- The per-item workflow with its catch block (audioExport.js lines 191-385).
On a step failure the catch increments the consecutive-error counter and
filesErrored and still adds the title (lines 356-381); on success, including
the soft-failure path where the removal wait times out and the still-attached
container is force-removed, it adds the title, increments filesProcessed and
resets the consecutive-error counter to zero (lines 330-355). -/
def processItem (ie : ItemEnv) (fileTitle : String) (s : LoopState) : StepResult :=
  match ie.stepFail with
  | some _ =>
      .stepContinue
        { s with
          stats := { s.stats with filesErrored := s.stats.filesErrored + 1 },
          processedTitles := addTitle fileTitle s.processedTitles,
          errorCount := s.errorCount + 1 }
        { title := fileTitle, errored := true, forcedRemoval := false }
  | none =>
      .stepContinue
        { s with
          stats := { s.stats with filesProcessed := s.stats.filesProcessed + 1 },
          processedTitles := addTitle fileTitle s.processedTitles,
          errorCount := 0 }
        { title := fileTitle, errored := false,
          forcedRemoval := ie.removalWaitTimesOut && ie.containerStillAttached }

/-- One iteration of the while (true) loop (audioExport.js lines 119-389), in
source order: stop check (line 120), consecutive-error ceiling check (line
129), scan (lines 139-163), completion check (line 167), selection of the
first unprocessed item and fileCount increment (lines 180-184), per-item
workflow (lines 191-385). -/
def stepIter (backgroundMode : Bool) (e : IterEnv) (s : LoopState) : StepResult :=
  if shouldStopExport backgroundMode e.stopFetchOk e.stopMsgShouldStop then
    .exitStopped s
  else if maxErrors ≤ s.errorCount then
    .exitFatal s
  else
    match computeUnprocessed e.scan s.processedTitles with
    | [] => .exitCompleted s
    | item :: _ =>
        processItem e.item item.title { s with fileCount := s.fileCount + 1 }

/-- How a modeled run ended. outOfEnv means the supplied iteration
environments ran out while the loop would continue; the other constructors
correspond to the stop return (line 127), the completion return (line 177) and
the fatal throw (line 135). -/
inductive LoopOutcome where
  | stopped (s : LoopState)
  | completed (s : LoopState)
  | fatal (s : LoopState)
  | outOfEnv (s : LoopState)
  deriving DecidableEq, Repr

/-- The outer loop over a finite list of iteration environments. -/
def runLoop (backgroundMode : Bool) : List IterEnv → LoopState → LoopOutcome
  | [], s => .outOfEnv s
  | e :: rest, s =>
    match stepIter backgroundMode e s with
    | .exitStopped s2 => .stopped s2
    | .exitCompleted s2 => .completed s2
    | .exitFatal s2 => .fatal s2
    | .stepContinue s2 _ => runLoop backgroundMode rest s2

/-- The loop state carried by an outcome. -/
def loopStateOf : LoopOutcome → LoopState
  | .stopped s => s
  | .completed s => s
  | .fatal s => s
  | .outOfEnv s => s

/-- Initial state of a run (audioExport.js lines 40-46 and 95-96). -/
def initState : LoopState :=
  { stats := { filesProcessed := 0, filesErrored := 0, filesSkipped := 0 },
    processedTitles := [], fileCount := 0, errorCount := 0 }

/-- Settled value of a JS promise. -/
inductive JsResult (α : Type) where
  | resolved (a : α)
  | rejected (msg : String)
  deriving DecidableEq, Repr

/-- The message of the fatal throw (audioExport.js line 135, with
maxErrors = 3). -/
def fatalErrorMessage : String := "Stopping after 3 consecutive errors."

/-- Completion of the try block of runExportAll before its finally clause
runs: the stop and completion paths return stats, the fatal path throws. none
models a run that is still inside the loop when the environments run out. -/
def tryCompletion : LoopOutcome → Option (JsResult RunStats)
  | .stopped s => some (.resolved s.stats)
  | .completed s => some (.resolved s.stats)
  | .fatal _ => some (.rejected fatalErrorMessage)
  | .outOfEnv _ => none

/-- The finally clause (audioExport.js lines 390-393) ends in return stats; in
JS a return inside finally replaces any pending completion of the try block,
including a pending throw. -/
def finallyReturnStats (stats : RunStats) (_pending : JsResult RunStats) :
    JsResult RunStats :=
  .resolved stats

/-- runExportAll (audioExport.js lines 35-394) as observed by its caller: the
try-block completion filtered through the finally clause. -/
def runExportAllResult (backgroundMode : Bool) (envs : List IterEnv) :
    Option (JsResult RunStats) :=
  (tryCompletion (runLoop backgroundMode envs initState)).map
    (finallyReturnStats (loopStateOf (runLoop backgroundMode envs initState)).stats)

/-- Whether an outcome is the stopped exit. -/
def isStopped : LoopOutcome → Bool
  | .stopped _ => true
  | _ => false

/-- Whether an outcome is the fatal exit. -/
def isFatal : LoopOutcome → Bool
  | .fatal _ => true
  | _ => false

/-- The C4 invariant: the two counters sum to the size of the processed set. -/
def statsInv (s : LoopState) : Prop :=
  s.stats.filesProcessed + s.stats.filesErrored = s.processedTitles.length

/-- An iteration environment whose scan finds one file with the given title
and whose item workflow fails at the share-control step. -/
def failEnv (t : String) : IterEnv :=
  { stopFetchOk := false, stopMsgShouldStop := false,
    scan := some [{ title := t }],
    item := { stepFail := some .shareControl, removalWaitTimesOut := false,
              containerStillAttached := false } }

/-- An iteration environment whose scan finds one file with the given title
and whose item workflow fully succeeds. -/
def okEnv (t : String) : IterEnv :=
  { stopFetchOk := false, stopMsgShouldStop := false,
    scan := some [{ title := t }],
    item := { stepFail := none, removalWaitTimesOut := false,
              containerStillAttached := false } }

/-- Three consecutive failures followed by a still-unprocessed fourth item. -/
def c1Envs : List IterEnv := [failEnv "A", failEnv "B", failEnv "C", okEnv "D"]

/-- A foreground run answers false to the stop check (audioExport.js
line 78). -/
theorem shouldStopExport_foreground (fetchOk msgShouldStop : Bool) :
    shouldStopExport false fetchOk msgShouldStop = false := rfl

/-- The title just added is a member of the set. -/
theorem mem_addTitle (t : String) (ts : List String) : t ∈ addTitle t ts := by
  unfold addTitle
  split
  · next h => exact List.mem_of_elem_eq_true h
  · exact List.mem_cons_self t ts

/-- Adding a fresh title grows the set by exactly one. -/
theorem addTitle_length {t : String} {ts : List String} (h : t ∉ ts) :
    (addTitle t ts).length = ts.length + 1 := by
  unfold addTitle
  rw [if_neg]
  · rfl
  · intro hc
    exact h (List.mem_of_elem_eq_true hc)

/-- Adding never removes a title. -/
theorem subset_addTitle (t : String) (ts : List String) : ts ⊆ addTitle t ts := by
  unfold addTitle
  split
  · exact fun a ha => ha
  · exact List.subset_cons_self t ts

/-- An item the scan selects as unprocessed has a title that is not in the
processed set and is nonempty. -/
theorem computeUnprocessed_not_mem {scan : Option (List FileItem)}
    {p : List String} {f : FileItem} (h : f ∈ computeUnprocessed scan p) :
    f.title ∉ p ∧ f.title ≠ "" := by
  cases scan with
  | none => simp [computeUnprocessed] at h
  | some fs =>
      unfold computeUnprocessed at h
      rw [List.mem_filter] at h
      obtain ⟨-, hb⟩ := h
      rw [Bool.and_eq_true] at hb
      obtain ⟨h1, h2⟩ := hb
      refine ⟨?_, ?_⟩
      · intro hmem
        rw [Bool.not_eq_true'] at h2
        have h3 : p.contains f.title = true := List.elem_eq_true_of_mem hmem
        exact Bool.noConfusion (h3.symm.trans h2)
      · intro he
        rw [he] at h1
        simp at h1

/-- A foreground iteration can never take the stop exit, because its stop
check is constantly false. -/
theorem stepIter_foreground_not_stopped (e : IterEnv) (s s2 : LoopState) :
    stepIter false e s ≠ .exitStopped s2 := by
  unfold stepIter
  rw [shouldStopExport_foreground]
  simp only [Bool.false_eq_true, if_false]
  split
  · intro h; exact StepResult.noConfusion h
  · split
    · intro h; exact StepResult.noConfusion h
    · unfold processItem
      split
      · intro h; exact StepResult.noConfusion h
      · intro h; exact StepResult.noConfusion h

/-- Case analysis of one iteration: either it exits with the state unchanged
through the stop, completion or fatal branch, or it runs the per-item workflow
on a title not yet processed, adds exactly that title to the processed set and
increments exactly one of the two counters. -/
theorem stepIter_spec (backgroundMode : Bool) (e : IterEnv) (s : LoopState) :
    stepIter backgroundMode e s = .exitStopped s ∨
    stepIter backgroundMode e s = .exitCompleted s ∨
    stepIter backgroundMode e s = .exitFatal s ∨
    ∃ s2 r, stepIter backgroundMode e s = .stepContinue s2 r ∧
      r.title ∉ s.processedTitles ∧
      s2.processedTitles = addTitle r.title s.processedTitles ∧
      s2.stats.filesProcessed + s2.stats.filesErrored
        = s.stats.filesProcessed + s.stats.filesErrored + 1 := by
  unfold stepIter
  split
  · exact Or.inl rfl
  · split
    · exact Or.inr (Or.inr (Or.inl rfl))
    · split
      · exact Or.inr (Or.inl rfl)
      · next item rest heq =>
        refine Or.inr (Or.inr (Or.inr ?_))
        have hmem : item ∈ computeUnprocessed e.scan s.processedTitles := by
          rw [heq]; exact List.mem_cons_self item rest
        have hnot := (computeUnprocessed_not_mem hmem).1
        unfold processItem
        cases hsf : e.item.stepFail with
        | some f =>
            refine ⟨_, _, rfl, hnot, rfl, ?_⟩
            show s.stats.filesProcessed + (s.stats.filesErrored + 1)
              = s.stats.filesProcessed + s.stats.filesErrored + 1
            omega
        | none =>
            refine ⟨_, _, rfl, hnot, rfl, ?_⟩
            show s.stats.filesProcessed + 1 + s.stats.filesErrored
              = s.stats.filesProcessed + s.stats.filesErrored + 1
            omega

/-- The counter sum invariant is preserved by whole runs from any state
satisfying it. -/
theorem runLoop_statsInv (backgroundMode : Bool) (envs : List IterEnv) :
    ∀ s : LoopState, statsInv s →
      statsInv (loopStateOf (runLoop backgroundMode envs s)) := by
  induction envs with
  | nil => intro s hs; exact hs
  | cons e rest ih =>
      intro s hs
      rcases stepIter_spec backgroundMode e s with h | h | h |
        ⟨s2, r, h, hnot, hproc, hsum⟩
      · simp only [runLoop]; rw [h]; exact hs
      · simp only [runLoop]; rw [h]; exact hs
      · simp only [runLoop]; rw [h]; exact hs
      · simp only [runLoop]; rw [h]
        refine ih s2 ?_
        unfold statsInv at hs ⊢
        rw [hsum, hproc, addTitle_length hnot, hs]

/-- The processed set only ever grows over a run. -/
theorem runLoop_processed_subset (backgroundMode : Bool) (envs : List IterEnv) :
    ∀ s : LoopState,
      s.processedTitles ⊆
        (loopStateOf (runLoop backgroundMode envs s)).processedTitles := by
  induction envs with
  | nil => intro s; exact fun a ha => ha
  | cons e rest ih =>
      intro s
      rcases stepIter_spec backgroundMode e s with h | h | h |
        ⟨s2, r, h, hnot, hproc, hsum⟩
      · simp only [runLoop]; rw [h]; exact fun a ha => ha
      · simp only [runLoop]; rw [h]; exact fun a ha => ha
      · simp only [runLoop]; rw [h]; exact fun a ha => ha
      · simp only [runLoop]; rw [h]
        refine List.Subset.trans ?_ (ih s2)
        rw [hproc]
        exact subset_addTitle r.title s.processedTitles

/-- C1 counterexample: with three consecutively failing items and a fourth
unprocessed item "D", the run does reach the fatal throw after exactly three
consecutive failures and does not start "D" (fileCount stays 3, "D" stays
unprocessed), but the fatal error does NOT propagate to the caller: the
finally clause of audioExport.js lines 390-393 ends in return stats, which in
JS replaces the pending throw, so the returned promise resolves with the
normal stats object and never rejects — contradicting the propagation part of
the claim. -/
theorem c1_counterexample :
    tryCompletion (runLoop false c1Envs initState)
      = some (JsResult.rejected fatalErrorMessage) ∧
    runExportAllResult false c1Envs
      = some (JsResult.resolved
          { filesProcessed := 0, filesErrored := 3, filesSkipped := 0 }) ∧
    (∀ m, runExportAllResult false c1Envs ≠ some (JsResult.rejected m)) ∧
    (loopStateOf (runLoop false c1Envs initState)).fileCount = 3 ∧
    "D" ∉ (loopStateOf (runLoop false c1Envs initState)).processedTitles := by
  refine ⟨rfl, rfl, ?_, rfl, by decide⟩
  intro m h
  rw [show runExportAllResult false c1Envs
      = some (JsResult.resolved
          { filesProcessed := 0, filesErrored := 3, filesSkipped := 0 }) from rfl] at h
  exact JsResult.noConfusion (Option.some.inj h)

/-- C1 (amended): after exactly 3 consecutive per-item failures, the next
iteration boundary (stop signal unobserved) takes the fatal exit immediately
and no further item is started; the try block completes with the fatal throw,
but the finally clause replaces it with return stats, so the run resolves
normally with the current stats instead of rejecting. -/
theorem c1_amended_thm :
    (∀ (backgroundMode : Bool) (e : IterEnv) (envs : List IterEnv) (s : LoopState),
        shouldStopExport backgroundMode e.stopFetchOk e.stopMsgShouldStop = false →
        maxErrors ≤ s.errorCount →
        runLoop backgroundMode (e :: envs) s = .fatal s) ∧
    (∀ (backgroundMode : Bool) (envs : List IterEnv) (s : LoopState),
        runLoop backgroundMode envs initState = .fatal s →
        tryCompletion (runLoop backgroundMode envs initState)
          = some (JsResult.rejected fatalErrorMessage) ∧
        runExportAllResult backgroundMode envs
          = some (JsResult.resolved s.stats)) := by
  constructor
  · intro bg e envs s hstop herr
    simp only [runLoop, stepIter, hstop, Bool.false_eq_true, if_false, if_pos herr]
  · intro bg envs s h
    rw [runExportAllResult, h]
    exact ⟨rfl, rfl⟩

/-- C1 witness: the amended theorem applied at concrete inputs — a state with
errorCount 3 exits fatal at once, and the concrete fatal run of c1Envs
resolves with its stats. -/
theorem c1_amended_witness :
    runLoop false [failEnv "A"] { initState with errorCount := 3 }
      = .fatal { initState with errorCount := 3 } ∧
    runExportAllResult false c1Envs
      = some (JsResult.resolved
          { filesProcessed := 0, filesErrored := 3, filesSkipped := 0 }) := by
  constructor
  · exact c1_amended_thm.1 false (failEnv "A") [] { initState with errorCount := 3 }
      rfl (by decide)
  · exact (c1_amended_thm.2 false c1Envs
      { stats := { filesProcessed := 0, filesErrored := 3, filesSkipped := 0 },
        processedTitles := ["C", "B", "A"], fileCount := 3, errorCount := 3 }
      (by decide)).2

/-- C2: when the stop signal is observed true at the outer-loop boundary
check, the run exits Stopped at once with the state exactly as the previous
iteration left it (the current stats are returned and no further item is
started, whatever environments remain); and any iteration that does start an
item finishes it completely — the loop consults the signal only at the
boundary, so the started item has its title recorded in the processed set and
exactly one of the two counters incremented before the next boundary check can
observe the signal. -/
theorem c2_thm :
    (∀ (backgroundMode : Bool) (e : IterEnv) (envs : List IterEnv) (s : LoopState),
        shouldStopExport backgroundMode e.stopFetchOk e.stopMsgShouldStop = true →
        runLoop backgroundMode (e :: envs) s = .stopped s) ∧
    (∀ (backgroundMode : Bool) (e : IterEnv) (s s2 : LoopState) (r : ItemRecord),
        stepIter backgroundMode e s = .stepContinue s2 r →
        r.title ∈ s2.processedTitles ∧
        s2.stats.filesProcessed + s2.stats.filesErrored
          = s.stats.filesProcessed + s.stats.filesErrored + 1) := by
  constructor
  · intro bg e envs s h
    simp only [runLoop, stepIter, h, if_true]
  · intro bg e s s2 r h
    rcases stepIter_spec bg e s with h1 | h1 | h1 | ⟨s3, r3, h1, hnot, hproc, hsum⟩
    · exact StepResult.noConfusion (h1.symm.trans h)
    · exact StepResult.noConfusion (h1.symm.trans h)
    · exact StepResult.noConfusion (h1.symm.trans h)
    · have h2 := h1.symm.trans h
      injection h2 with hs hr
      subst hs
      subst hr
      refine ⟨?_, hsum⟩
      rw [hproc]
      exact mem_addTitle _ _

/-- A background iteration environment in which the stop-flag fetch responds
ok, so the stop signal is observed. -/
def stopEnv : IterEnv :=
  { stopFetchOk := true, stopMsgShouldStop := false, scan := some [],
    item := { stepFail := none, removalWaitTimesOut := false,
              containerStillAttached := false } }

/-- C2 witness: a background run that observes the stop signal at its first
boundary stops with the initial state untouched, and a concrete started item
(which fails) is still recorded fully. -/
theorem c2_witness :
    runLoop true [stopEnv] initState = .stopped initState ∧
    ("A" ∈ (["A"] : List String) ∧ 0 + 1 = 0 + 0 + 1) := by
  refine ⟨c2_thm.1 true stopEnv [] initState rfl, ?_⟩
  exact c2_thm.2 false (failEnv "A") initState
    { stats := { filesProcessed := 0, filesErrored := 1, filesSkipped := 0 },
      processedTitles := ["A"], fileCount := 1, errorCount := 1 }
    { title := "A", errored := true, forcedRemoval := false } rfl

/-- C3: a foreground run answers false to every stop check (audioExport.js
line 78), and consequently no foreground run, from any state and under any
environments, ever ends through the Stopped exit. -/
theorem c3_thm :
    (∀ fetchOk msgShouldStop : Bool,
        shouldStopExport false fetchOk msgShouldStop = false) ∧
    (∀ (envs : List IterEnv) (s : LoopState),
        isStopped (runLoop false envs s) = false) := by
  refine ⟨fun _ _ => rfl, ?_⟩
  intro envs
  induction envs with
  | nil => intro s; rfl
  | cons e rest ih =>
      intro s
      rcases stepIter_spec false e s with h | h | h | ⟨s2, r, h, -, -, -⟩
      · exact absurd h (stepIter_foreground_not_stopped e s s)
      · simp only [runLoop]; rw [h]; rfl
      · simp only [runLoop]; rw [h]; rfl
      · simp only [runLoop]; rw [h]; exact ih s2

/-- C4: for every run from the initial state, the final state satisfies
filesProcessed + filesErrored = number of distinct titles ever added to the
processed set (instantiating the environment list with any prefix of a run
gives the state at that iteration boundary, so all boundaries are covered);
and every iteration that starts an item adds exactly one new title and
exactly one counter increment. -/
theorem c4_thm :
    (∀ (backgroundMode : Bool) (envs : List IterEnv),
        statsInv (loopStateOf (runLoop backgroundMode envs initState))) ∧
    (∀ (backgroundMode : Bool) (e : IterEnv) (s s2 : LoopState) (r : ItemRecord),
        stepIter backgroundMode e s = .stepContinue s2 r →
        s2.processedTitles.length = s.processedTitles.length + 1 ∧
        s2.stats.filesProcessed + s2.stats.filesErrored
          = s.stats.filesProcessed + s.stats.filesErrored + 1) := by
  constructor
  · intro bg envs
    exact runLoop_statsInv bg envs initState rfl
  · intro bg e s s2 r h
    rcases stepIter_spec bg e s with h1 | h1 | h1 | ⟨s3, r3, h1, hnot, hproc, hsum⟩
    · exact StepResult.noConfusion (h1.symm.trans h)
    · exact StepResult.noConfusion (h1.symm.trans h)
    · exact StepResult.noConfusion (h1.symm.trans h)
    · have h2 := h1.symm.trans h
      injection h2 with hs hr
      subst hs
      subst hr
      refine ⟨?_, hsum⟩
      rw [hproc]
      exact addTitle_length hnot

/-- C4 witness: the invariant holds at the end of the concrete c1Envs run, and
a concrete started item adds one title and one counter increment. -/
theorem c4_witness :
    statsInv (loopStateOf (runLoop false c1Envs initState)) ∧
    ((["A"] : List String).length = ([] : List String).length + 1 ∧
      0 + 1 = 0 + 0 + 1) := by
  refine ⟨c4_thm.1 false c1Envs, ?_⟩
  exact c4_thm.2 false (failEnv "A") initState
    { stats := { filesProcessed := 0, filesErrored := 1, filesSkipped := 0 },
      processedTitles := ["A"], fileCount := 1, errorCount := 1 }
    { title := "A", errored := true, forcedRemoval := false } rfl

/-- C5: the processed set starts empty, grows monotonically over any run
(titles are never removed), every per-item workflow — success and failure
alike — adds the title of its item, and a worklist scan never selects an item
whose title is already in the processed set. -/
theorem c5_thm :
    initState.processedTitles = [] ∧
    (∀ (backgroundMode : Bool) (envs : List IterEnv) (s : LoopState),
        s.processedTitles ⊆
          (loopStateOf (runLoop backgroundMode envs s)).processedTitles) ∧
    (∀ (ie : ItemEnv) (t : String) (s s2 : LoopState) (r : ItemRecord),
        processItem ie t s = .stepContinue s2 r → t ∈ s2.processedTitles) ∧
    (∀ (scan : Option (List FileItem)) (p : List String) (f : FileItem),
        f ∈ computeUnprocessed scan p → f.title ∉ p) := by
  refine ⟨rfl, runLoop_processed_subset, ?_, ?_⟩
  · intro ie t s s2 r h
    unfold processItem at h
    cases hsf : ie.stepFail with
    | some f =>
        rw [hsf] at h
        injection h with hs hr
        rw [← hs]
        exact mem_addTitle t s.processedTitles
    | none =>
        rw [hsf] at h
        injection h with hs hr
        rw [← hs]
        exact mem_addTitle t s.processedTitles
  · intro scan p f h
    exact (computeUnprocessed_not_mem h).1

/-- C5 witness: the three conditional parts applied at concrete inputs — an
already-processed title survives a further failing iteration, a failing item
still records its title, and a scan over a page holding a processed "A" and a
fresh "B" only selects titles outside the processed set. -/
theorem c5_witness :
    ("A" ∈ (loopStateOf (runLoop false [failEnv "B"]
        { initState with processedTitles := ["A"] })).processedTitles) ∧
    ("A" ∈ (["A"] : List String)) ∧
    (FileItem.title { title := "B" } ∉ (["A"] : List String)) := by
  refine ⟨?_, ?_, ?_⟩
  · exact c5_thm.2.1 false [failEnv "B"]
      { initState with processedTitles := ["A"] } (by decide)
  · exact c5_thm.2.2.1
      { stepFail := some .shareControl, removalWaitTimesOut := false,
        containerStillAttached := false } "A" initState
      { stats := { filesProcessed := 0, filesErrored := 1, filesSkipped := 0 },
        processedTitles := ["A"], fileCount := 0, errorCount := 1 }
      { title := "A", errored := true, forcedRemoval := false } rfl
  · exact c5_thm.2.2.2 (some [{ title := "A" }, { title := "B" }]) ["A"]
      { title := "B" } (by decide)

/-- C6: a first iteration whose scan yields no unprocessed item (no containers
at all, or the candidate wait timed out — both make computeUnprocessed empty)
completes the run immediately with the initial state: filesProcessed = 0,
filesErrored = 0, the fatal exit is not taken, and the caller sees a resolved
promise with the zero stats. -/
theorem c6_thm :
    ∀ (backgroundMode : Bool) (e : IterEnv) (envs : List IterEnv),
      shouldStopExport backgroundMode e.stopFetchOk e.stopMsgShouldStop = false →
      computeUnprocessed e.scan initState.processedTitles = [] →
      runLoop backgroundMode (e :: envs) initState = .completed initState ∧
      isFatal (runLoop backgroundMode (e :: envs) initState) = false ∧
      (loopStateOf (runLoop backgroundMode (e :: envs) initState)).stats
        = { filesProcessed := 0, filesErrored := 0, filesSkipped := 0 } ∧
      runExportAllResult backgroundMode (e :: envs)
        = some (JsResult.resolved
            { filesProcessed := 0, filesErrored := 0, filesSkipped := 0 }) := by
  intro bg e envs hstop hscan
  have h : runLoop bg (e :: envs) initState = .completed initState := by
    simp only [runLoop, stepIter, hstop, Bool.false_eq_true, if_false, hscan]
    rfl
  refine ⟨h, by rw [h]; rfl, by rw [h]; rfl, ?_⟩
  rw [runExportAllResult, h]
  rfl

/-- A foreground iteration environment whose scan finds zero containers. -/
def emptyScanEnv : IterEnv :=
  { stopFetchOk := true, stopMsgShouldStop := true, scan := some [],
    item := { stepFail := none, removalWaitTimesOut := false,
              containerStillAttached := false } }

/-- C6 witness: the theorem applied to a concrete empty-scan first
iteration. -/
theorem c6_witness :
    runLoop false [emptyScanEnv] initState = .completed initState ∧
    runExportAllResult false [emptyScanEnv]
      = some (JsResult.resolved
          { filesProcessed := 0, filesErrored := 0, filesSkipped := 0 }) := by
  have h := c6_thm false emptyScanEnv [] rfl rfl
  exact ⟨h.1, h.2.2.2⟩

/-- C7: an item whose every export and delete step succeeds, whose
post-delete removal wait times out while its container is still attached, is
finished with the force-removal fallback flagged, its title marked processed,
filesProcessed incremented, filesErrored unchanged, and the consecutive-error
counter reset to zero (a soft failure counted as a success). -/
theorem c7_thm :
    ∀ (backgroundMode : Bool) (e : IterEnv) (s : LoopState)
      (item : FileItem) (rest : List FileItem),
      shouldStopExport backgroundMode e.stopFetchOk e.stopMsgShouldStop = false →
      s.errorCount < maxErrors →
      computeUnprocessed e.scan s.processedTitles = item :: rest →
      e.item = { stepFail := none, removalWaitTimesOut := true,
                 containerStillAttached := true } →
      stepIter backgroundMode e s
        = .stepContinue
            { stats := { s.stats with
                filesProcessed := s.stats.filesProcessed + 1 },
              processedTitles := addTitle item.title s.processedTitles,
              fileCount := s.fileCount + 1, errorCount := 0 }
            { title := item.title, errored := false, forcedRemoval := true } ∧
      item.title ∈ addTitle item.title s.processedTitles := by
  intro bg e s item rest hstop herr hscan hitem
  refine ⟨?_, mem_addTitle item.title s.processedTitles⟩
  unfold stepIter
  rw [hstop]
  simp only [Bool.false_eq_true, if_false]
  rw [if_neg (Nat.not_le.mpr herr), hscan, hitem]
  rfl

/-- An iteration environment reproducing the soft-failure path for one item
titled X. -/
def softFailEnv : IterEnv :=
  { stopFetchOk := false, stopMsgShouldStop := false,
    scan := some [{ title := "X" }],
    item := { stepFail := none, removalWaitTimesOut := true,
              containerStillAttached := true } }

/-- C7 witness: the theorem applied to the concrete soft-failure
environment. -/
theorem c7_witness :
    stepIter false softFailEnv initState
      = .stepContinue
          { stats := { filesProcessed := 1, filesErrored := 0, filesSkipped := 0 },
            processedTitles := ["X"], fileCount := 1, errorCount := 0 }
          { title := "X", errored := false, forcedRemoval := true } ∧
    "X" ∈ (["X"] : List String) := by
  exact c7_thm false softFailEnv initState { title := "X" } [] rfl (by decide) rfl rfl

/-- A tick sequence whose first predicate evaluation throws and whose second
would already converge. -/
def c8Ticks : Nat → Tick Bool :=
  fun i => if i = 0 then .exn "predicate threw" else .ok true

/-- The same tick sequence with the throw replaced by a plain false. -/
def c8TicksOk : Nat → Tick Bool :=
  fun i => if i = 0 then .ok false else .ok true

/-- C8 counterexample: a single predicate exception on the very first poll
tick makes waitForCondition fail immediately with that exception — not with a
timeout error, and long before the timeout — even though the very next tick
would have converged (the exception-free variant succeeds after one retry at
250 ms). The same tick exception makes findElementByXPath return null where
the exception-free variant finds the element. So a poll-tick exception does
fail the wait by itself, contradicting the claim. -/
theorem c8_counterexample :
    waitForCondition c8Ticks 15000 = .thrown "predicate threw" ∧
    waitForCondition c8TicksOk 15000 = .success pollIntervalMs ∧
    findElementByXPath c8Ticks 15000 = false ∧
    findElementByXPath c8TicksOk 15000 = true := by
  exact ⟨rfl, rfl, rfl, rfl⟩

/-- C8 (amended): in waitForCondition and waitForElement an exception raised
by the predicate on a poll tick is not caught — it propagates out at that tick
and aborts the wait (first and third parts, after any number of quiet ticks);
the timeout error arises only when every tick returns false without throwing
(second part); findElementByXPath catches the propagated exception and
returns null immediately, exactly as it does on timeout (fourth part). -/
theorem c8_amended_thm :
    (∀ (n : Nat) (m : String) (ts : List (Tick Bool)) (w : Nat),
        waitForConditionAux
          (List.replicate n (Tick.ok false) ++ Tick.exn m :: ts) w = .thrown m) ∧
    (∀ (ts : List (Tick Bool)) (w w2 : Nat),
        waitForConditionAux ts w = .timeoutErr w2 →
        ∀ t ∈ ts, t = Tick.ok false) ∧
    (∀ (n : Nat) (v : ElemView) (m : String) (ts : List ElemView) (w : Nat),
        v.present = true → v.cond = Tick.exn m →
        waitForElementAux
          (List.replicate n { present := false, cond := Tick.ok false, visible := false }
            ++ v :: ts) w = .thrown m) ∧
    (∀ (ticks : Nat → Tick Bool) (timeout : Nat) (m : String),
        waitForCondition ticks timeout = .thrown m →
        findElementByXPath ticks timeout = false) := by
  refine ⟨?_, ?_, ?_, ?_⟩
  · intro n
    induction n with
    | zero => intro m ts w; rfl
    | succ k ih =>
        intro m ts w
        rw [List.replicate_succ, List.cons_append]
        exact ih m ts (w + pollIntervalMs)
  · intro ts
    induction ts with
    | nil => intro w w2 h t ht; cases ht
    | cons t rest ih =>
        intro w w2 h u hu
        cases t with
        | exn m => exact WaitOutcome.noConfusion h
        | ok b =>
            cases b with
            | true => exact WaitOutcome.noConfusion h
            | false =>
                rcases List.mem_cons.mp hu with h1 | h1
                · rw [h1]
                · exact ih (w + pollIntervalMs) w2 h u h1
  · intro n
    induction n with
    | zero =>
        intro v m ts w hp hc
        rw [List.replicate_zero, List.nil_append]
        show waitForElementAux (v :: ts) w = .thrown m
        unfold waitForElementAux
        rw [hp, hc]
        rfl
    | succ k ih =>
        intro v m ts w hp hc
        rw [List.replicate_succ, List.cons_append]
        show waitForElementAux (_ :: _) w = .thrown m
        unfold waitForElementAux
        exact ih v m ts (w + pollIntervalMs) hp hc
  · intro ticks timeout m h
    unfold findElementByXPath
    rw [h]

/-- C8 witness: each conditional part of the amended theorem applied at
concrete tick sequences. -/
theorem c8_amended_witness :
    waitForConditionAux
      (List.replicate 2 (Tick.ok false) ++ Tick.exn "boom" :: []) 0
      = .thrown "boom" ∧
    (Tick.ok false : Tick Bool) = Tick.ok false ∧
    waitForElementAux
      (List.replicate 1 { present := false, cond := Tick.ok false, visible := false }
        ++ { present := true, cond := Tick.exn "boom2", visible := false } :: []) 0
      = .thrown "boom2" ∧
    findElementByXPath c8Ticks 15000 = false := by
  refine ⟨c8_amended_thm.1 2 "boom" [] 0, ?_, ?_, ?_⟩
  · exact c8_amended_thm.2.1 [Tick.ok false, Tick.ok false] 0 500 rfl
      (Tick.ok false) (by decide)
  · exact c8_amended_thm.2.2.1 1
      { present := true, cond := Tick.exn "boom2", visible := false } "boom2" [] 0
      rfl rfl
  · exact c8_amended_thm.2.2.2 c8Ticks 15000 "predicate threw" rfl

/-- C9: the delete-menu locator polls every 250 ms and, at 15000 ms, has a
budget of exactly 60 polls; a poll at waited less or equal 5000 ms consults
only the primary selectors (its result is exactly the primary scan result,
whatever the fallback nodes hold); a poll strictly after 5000 ms whose primary
scan misses additionally runs the broadened fallback scan; and when every poll
in the budget misses, the locator fails by throwing the timeout error. -/
theorem c9_thm :
    pollIntervalMs = 250 ∧
    numPolls 15000 = 60 ∧
    (∀ (w : Nat) (d : MenuDom), w ≤ 5000 →
        pollDeleteMenuOnce w d
          = (scanPrimary d).map (fun t => MenuResult.found true t w)) ∧
    (∀ (w : Nat) (d : MenuDom), 5000 < w → scanPrimary d = none →
        pollDeleteMenuOnce w d
          = (scanFallback d).map (fun t => MenuResult.found false t w)) ∧
    (∀ (doms : Nat → MenuDom) (fuel i maxWaitMs : Nat),
        (∀ j, j < fuel →
          pollDeleteMenuOnce (pollIntervalMs * (i + j)) (doms (i + j)) = none) →
        waitForDeleteMenuItemAux doms fuel i maxWaitMs = .timeoutErr maxWaitMs) := by
  refine ⟨rfl, rfl, ?_, ?_, ?_⟩
  · intro w d h
    cases hp : scanPrimary d with
    | some txt => simp [pollDeleteMenuOnce, hp]
    | none => simp [pollDeleteMenuOnce, hp, Nat.not_lt.mpr h]
  · intro w d h hp
    cases hf : scanFallback d with
    | some txt => simp [pollDeleteMenuOnce, hp, hf, if_pos h]
    | none => simp [pollDeleteMenuOnce, hp, hf, if_pos h]
  · intro doms fuel
    induction fuel with
    | zero => intro i maxW h; rfl
    | succ k ih =>
        intro i maxW h
        have h0 := h 0 (Nat.succ_pos k)
        rw [Nat.add_zero] at h0
        show (match pollDeleteMenuOnce (pollIntervalMs * i) (doms i) with
          | some r => r
          | none => waitForDeleteMenuItemAux doms k (i + 1) maxW) = .timeoutErr maxW
        rw [h0]
        refine ih (i + 1) maxW ?_
        intro j hj
        have h2 := h (j + 1) (Nat.succ_lt_succ hj)
        rw [show i + (j + 1) = i + 1 + j by omega] at h2
        exact h2

/-- C9 witness: a first-poll primary hit at waited 0, a fallback hit at the
first post-5-second poll (waited 5250), and a full 60-poll run over an empty
page ending in the timeout throw. -/
theorem c9_witness :
    pollDeleteMenuOnce 0 { menuItems := ["Delete file now"], fallbackEls := [] }
      = some (MenuResult.found true "Delete file now" 0) ∧
    pollDeleteMenuOnce 5250 { menuItems := [], fallbackEls := ["Delete"] }
      = some (MenuResult.found false "Delete" 5250) ∧
    waitForDeleteMenuItem (fun _ => { menuItems := [], fallbackEls := [] }) 15000
      = .timeoutErr 15000 := by
  refine ⟨?_, ?_, ?_⟩
  · have h := c9_thm.2.2.1 0 { menuItems := ["Delete file now"], fallbackEls := [] }
      (by decide)
    rw [h]
    rfl
  · have h := c9_thm.2.2.2.1 5250 { menuItems := [], fallbackEls := ["Delete"] }
      (by decide) rfl
    rw [h]
    rfl
  · exact c9_thm.2.2.2.2 (fun _ => { menuItems := [], fallbackEls := [] })
      (numPolls 15000) 0 15000
      (fun j hj => by simp [pollDeleteMenuOnce, scanPrimary, scanFallback])

/-- C10: every text accepted by the fallback phase criterion (exact equality
with a delete string) is also accepted by the primary phase criterion
(substring containment of a delete string), and the text
"Delete this recording" is accepted by the primary criterion but rejected by
the fallback criterion — so the broadened phase is strictly narrower in its
text-matching criterion, as claimed. -/
theorem c10_thm :
    (∀ text : String, fallbackTextMatch text = true → primaryTextMatch text = true) ∧
    primaryTextMatch "Delete this recording" = true ∧
    fallbackTextMatch "Delete this recording" = false := by
  refine ⟨?_, by decide, by decide⟩
  intro text h
  have hmem : text ∈ deleteTexts := List.mem_of_elem_eq_true h
  unfold primaryTextMatch
  rw [List.any_eq_true]
  refine ⟨text, hmem, ?_⟩
  unfold jsIncludes
  exact decide_eq_true ⟨[], [], by simp⟩

/-- C10 witness: the inclusion applied at the concrete text "Delete". -/
theorem c10_witness :
    fallbackTextMatch "Delete" = true ∧ primaryTextMatch "Delete" = true :=
  ⟨by decide, c10_thm.1 "Delete" (by decide)⟩
